/-
Verification of the Signal Pipeline Engine: a shallow embedding of the
normalizer (src/analysis/signals.js), the scoring engine
(src/analysis/scoring.js), the collection orchestrator
(src/cron/scheduler.js) and the snapshot store (src/storage/store.js),
together with proofs about the specified properties.

Modelling conventions:
  - JavaScript values flowing through the normalizer are modelled by the
    inductive type JSValue (undefined, null, booleans, numbers as rationals,
    strings, arrays, objects).  Property access on null or undefined, and
    calling a method on a value whose type does not provide it, are
    modelled as errors in the Except monad, mirroring the TypeError the
    runtime would raise; a value that does provide the method (a string or
    an array for includes) stays on the value path.
  - Strings are sequences of Unicode code points; JavaScript iterates UTF-16
    code units, which coincides with code points on the Basic Multilingual
    Plane (all inputs considered here are ASCII).
  - Calls to the system clock (new Date().toISOString()) are modelled by an
    explicit string parameter called now.
  - Date parsing inside the sort comparator of normalizeAll is modelled by an
    uninterpreted valuation parameter dateVal; every property proved here
    holds for all valuations.
  - JavaScript Array.prototype.sort is required to be stable by the language
    standard; it is modelled by insertionSort, which is stable.
-/
import Mathlib

set_option maxRecDepth 100000

namespace Radar

instance {ε α : Type} [DecidableEq ε] [DecidableEq α] : DecidableEq (Except ε α)
  | .ok a, .ok b => decidable_of_iff (a = b) (by simp)
  | .ok _, .error _ => .isFalse (by simp)
  | .error _, .ok _ => .isFalse (by simp)
  | .error e, .error f => decidable_of_iff (e = f) (by simp)

/-- JavaScript values as they appear in the loosely typed raw records
(JSON values plus undefined). -/
inductive JSValue : Type where
  | undefinedV : JSValue
  | null : JSValue
  | bool : Bool → JSValue
  | num : ℚ → JSValue
  | str : String → JSValue
  | arr : List JSValue → JSValue
  | obj : List (String × JSValue) → JSValue

/-- JavaScript truthiness: undefined, null, false, 0 and the empty string are
falsy; every other value (including any array or object) is truthy. -/
def truthy : JSValue → Bool
  | .undefinedV => false
  | .null => false
  | .bool b => b
  | .num q => decide (q ≠ 0)
  | .str s => decide (s ≠ "")
  | .arr _ => true
  | .obj _ => true

/-- The JavaScript logical-or `a || b`: the first operand when truthy,
otherwise the second. -/
def jsOr (a b : JSValue) : JSValue := if truthy a then a else b

/-- Property access `v.name`.  Throws a TypeError on null or undefined;
returns undefined for an absent property or for access on another
primitive. -/
def getF (v : JSValue) (name : String) : Except String JSValue :=
  match v with
  | .null => .error ("TypeError: cannot read properties of null (reading " ++ name ++ ")")
  | .undefinedV => .error ("TypeError: cannot read properties of undefined (reading " ++ name ++ ")")
  | .obj fields =>
      match fields.lookup name with
      | some x => .ok x
      | none => .ok .undefinedV
  | _ => .ok .undefinedV

/-- Lower-casing a string, as String.prototype.toLowerCase does on ASCII. -/
def jsToLower (s : String) : String := ⟨s.data.map Char.toLower⟩

/-- The prefix of length n of a string, as s.substring(0, n). -/
def jsSubstring (s : String) (n : ℕ) : String := ⟨s.data.take n⟩

/-- The JavaScript whitespace characters relevant to trim and \s: ASCII
blanks including vertical tab (11) and form feed (12), plus no-break space
(160) and the byte-order mark (65279). -/
def isJsWs (c : Char) : Bool :=
  c = ' ' || c = '\t' || c = '\n' || c = '\r' || c = Char.ofNat 11 ||
    c = Char.ofNat 12 || c = Char.ofNat 160 || c = Char.ofNat 65279

/-- String.prototype.trim: strip leading and trailing whitespace. -/
def jsTrim (s : String) : String :=
  ⟨((s.data.dropWhile isJsWs).reverse.dropWhile isJsWs).reverse⟩

/-- String.prototype.includes: substring containment. -/
def jsIncludes (s sub : String) : Bool :=
  s.data.tails.any (fun t => sub.data.isPrefixOf t)

/-- Replace each maximal run of whitespace by one underscore, as
 .replace with the pattern of one-or-more whitespace and the string _ does.
The flag records whether the previous character was inside a run. -/
def collapseWsAux : List Char → Bool → List Char
  | [], _ => []
  | c :: rest, inRun =>
      if isJsWs c then
        if inRun then collapseWsAux rest true
        else '_' :: collapseWsAux rest true
      else c :: collapseWsAux rest false

/-- Replace every maximal whitespace run in a string by an underscore. -/
def collapseWs (s : String) : String := ⟨collapseWsAux s.data false⟩

mutual
/-- String conversion of a JavaScript value, as String(x) or a template
literal performs it.  Numbers are rendered exactly for integral values; no
claim in this development stringifies a non-integral number. -/
def jsToString : JSValue → String
  | .undefinedV => "undefined"
  | .null => "null"
  | .bool b => if b then "true" else "false"
  | .num q => if q.den = 1 then toString q.num else toString q.num ++ "/" ++ toString q.den
  | .str s => s
  | .arr xs => String.intercalate "," (jsToStringList xs)
  | .obj _ => "[object Object]"

/-- String conversion of the elements of an array, as Array.prototype.join
uses it: null and undefined elements render as the empty string. -/
def jsToStringList : List JSValue → List String
  | [] => []
  | .undefinedV :: rest => "" :: jsToStringList rest
  | .null :: rest => "" :: jsToStringList rest
  | v :: rest => jsToString v :: jsToStringList rest
end

/-- Array.prototype.join with a separator: elements are stringified, with
null and undefined becoming empty strings. -/
def jsJoin (sep : String) (xs : List JSValue) : String :=
  String.intercalate sep (jsToStringList xs)

/-- Strict equality of a JavaScript value with a string literal. -/
def jsEqStr (v : JSValue) (s : String) : Bool :=
  match v with
  | .str t => t = s
  | _ => false

/-- Wrap an integer into the signed 32-bit range, as the JavaScript
ToInt32 conversion used by the operators << and |= does. -/
def toInt32 (n : ℤ) : ℤ := (n + 2 ^ 31) % 2 ^ 32 - 2 ^ 31

/-- One step of the rolling hash of generateId:
hash = ((hash << 5) - hash) + charCode, truncated by hash |= 0. -/
def hashStep (h : ℤ) (c : ℕ) : ℤ := toInt32 (toInt32 (h * 32) - h + c)

/-- The rolling hash of generateId over a whole string (hash starts at 0 and
each character code is folded in). -/
def hashString (s : String) : ℤ := s.data.foldl (fun h c => hashStep h c.toNat) 0

/-- One digit of a base-36 rendering, lowercase as Number.toString(36). -/
def digit36 (n : ℕ) : Char :=
  if n < 10 then Char.ofNat (48 + n) else Char.ofNat (87 + n)

/-- Fuel-driven base-36 digit production (most significant digit first). -/
def toBase36Aux : ℕ → ℕ → List Char
  | 0, _ => []
  | fuel + 1, n =>
      if n = 0 then []
      else toBase36Aux fuel (n / 36) ++ [digit36 (n % 36)]

/-- Base-36 rendering of a natural number, as Number.prototype.toString(36)
produces for a nonnegative integer. -/
def toBase36 (n : ℕ) : String := if n = 0 then "0" else ⟨toBase36Aux (n + 1) n⟩

/-- The third entry of the parts array in generateId:
raw.url or else raw.name or else the first 50 characters of raw.text
(via optional chaining) or else the empty string.  Evaluation short-circuits
left to right; substring on a truthy non-string text raises a TypeError. -/
def idKeyPart (raw : JSValue) : Except String JSValue := do
  let url ← getF raw "url"
  if truthy url then pure url else do
  let name ← getF raw "name"
  if truthy name then pure name else do
  let text ← getF raw "text"
  match text with
  | .null => pure (.str "")
  | .undefinedV => pure (.str "")
  | .str s => pure (jsOr (.str (jsSubstring s 50)) (.str ""))
  | _ => .error "TypeError: raw.text.substring is not a function"

/-- The parts array of generateId:
[raw.source or empty, raw.subSource or empty, url-or-name-or-text-prefix]. -/
def idParts (raw : JSValue) : Except String (List JSValue) := do
  let src ← getF raw "source"
  let sub ← getF raw "subSource"
  let key ← idKeyPart raw
  pure [jsOr src (.str ""), jsOr sub (.str ""), key]

/-- generateId from signals.js: join the three parts with a vertical bar,
fold the rolling 32-bit hash over the joined string, and render the absolute
value in base 36 behind the prefix sig_. -/
def generateId (raw : JSValue) : Except String String := do
  let parts ← idParts raw
  pure ("sig_" ++ toBase36 (hashString (jsJoin "|" parts)).natAbs)

/-- extractTitle from signals.js: raw.name when truthy, else the trimmed
first 100 characters of raw.text when truthy, else a dollar-prefixed ticker,
else the literal Untitled Signal. -/
def extractTitle (raw : JSValue) : Except String JSValue := do
  let name ← getF raw "name"
  if truthy name then pure name else do
  let text ← getF raw "text"
  if truthy text then
    match text with
    | .str s => pure (.str (jsTrim (jsSubstring s 100)))
    | _ => .error "TypeError: raw.text.substring is not a function"
  else do
  let ticker ← getF raw "ticker"
  if truthy ticker then pure (.str ("$" ++ jsToString ticker))
  else pure (.str "Untitled Signal")

/-- The title field of the normalized signal:
raw.name || raw.title || extractTitle(raw), with short-circuit evaluation. -/
def titleValue (raw : JSValue) : Except String JSValue := do
  let name ← getF raw "name"
  if truthy name then pure name else do
  let title ← getF raw "title"
  if truthy title then pure title else extractTitle raw

/-- Optional-chained includes, as raw.subSource?.includes evaluates:
undefined (falsy) on a nullish receiver, substring containment on a string
(String.prototype.includes), membership of the argument on an array
(Array.prototype.includes, SameValueZero comparison with the string
argument), and a TypeError on a number, boolean or plain object, which
have no includes method. -/
def optIncludes (v : JSValue) (sub : String) : Except String Bool :=
  match v with
  | .null => pure false
  | .undefinedV => pure false
  | .str s => pure (jsIncludes s sub)
  | .arr xs => pure (xs.any (fun x => jsEqStr x sub))
  | _ => .error "TypeError: raw.subSource.includes is not a function"

/-- classifySignalType from signals.js, with the branch order of the
source: github, research, pumpfun/dexscreener substrings of subSource,
onchain, the social sub-cases, and finally general. -/
def classifySignalType (raw : JSValue) : Except String String := do
  let src ← getF raw "source"
  if jsEqStr src "github" then pure "developer_activity" else
  if jsEqStr src "research" then pure "research_insight" else do
  let sub ← getF raw "subSource"
  let hasPumpfun ← optIncludes sub "pumpfun"
  if hasPumpfun then pure "token_activity" else do
  let hasDex ← optIncludes sub "dexscreener"
  if hasDex then pure "token_activity" else
  if jsEqStr src "onchain" then pure "onchain_activity" else
  if jsEqStr src "social" then
    if jsEqStr sub "kol" then pure "kol_signal"
    else if jsEqStr sub "trending" then pure "social_trending"
    else pure "social_mention"
  else pure "general"

/-- The signalType field: raw.signalType || classifySignalType(raw), with
the classifier only evaluated when the field is falsy. -/
def signalTypeValue (raw : JSValue) : Except String JSValue := do
  let st ← getF raw "signalType"
  if truthy st then pure st else do
  let c ← classifySignalType raw
  pure (.str c)

/-- dedupeTopics from signals.js: a non-array yields the empty list;
otherwise stringify, lower-case, trim and collapse whitespace of each tag,
keep the tags of length strictly between 0 and 50, and drop later
duplicates (insertion order of the Set is first occurrence). -/
def dedupeTopics (v : JSValue) : List String :=
  match v with
  | .arr xs =>
      let normalized := (xs.map
        (fun t => collapseWs (jsTrim (jsToLower (jsToString t))))).filter
        (fun t => 0 < t.length && t.length < 50)
      normalized.eraseDups
  | _ => []

/-- The canonical Signal shape produced by normalizeSignal.  The id is
always a string and the topics always a list of strings; every other field
carries whatever JavaScript value the raw record supplied (or the
documented default). -/
structure Signal where
  id : String := ""
  source : JSValue := .undefinedV
  subSource : JSValue := .undefinedV
  title : JSValue := .undefinedV
  text : JSValue := .undefinedV
  url : JSValue := .undefinedV
  date : JSValue := .undefinedV
  collectedAt : JSValue := .undefinedV
  topics : List String := []
  sentiment : JSValue := .undefinedV
  signalType : JSValue := .undefinedV
  engagement : JSValue := .undefinedV
  stars : JSValue := .undefinedV
  marketCap : JSValue := .undefinedV
  username : JSValue := .undefinedV
  ticker : JSValue := .undefinedV
  address : JSValue := .undefinedV
  keyInsight : JSValue := .undefinedV
  dataPoint : JSValue := .undefinedV

/-- normalizeSignal from signals.js.  The record fields are produced in the
evaluation order of the object literal; the fallible subcomputations
(generateId, the title expression, the signalType expression) keep their
relative order so the first TypeError raised is the same one the source
raises.  The parameter now stands for new Date().toISOString(). -/
def normalizeSignal (now : String) (raw : JSValue) : Except String Signal := do
  let id ← generateId raw
  let sourceF ← getF raw "source"
  let subF ← getF raw "subSource"
  let sub2F ← getF raw "sub_source"
  let title ← titleValue raw
  let textF ← getF raw "text"
  let descF ← getF raw "description"
  let urlF ← getF raw "url"
  let newsF ← getF raw "news_url"
  let htmlF ← getF raw "html_url"
  let dateF ← getF raw "date"
  let createdF ← getF raw "createdAt"
  let collF ← getF raw "collectedAt"
  let topicsF ← getF raw "topics"
  let sentF ← getF raw "sentiment"
  let signalType ← signalTypeValue raw
  let engF ← getF raw "engagement"
  let starsF ← getF raw "stars"
  let mcF ← getF raw "marketCap"
  let userF ← getF raw "username"
  let tickF ← getF raw "ticker"
  let addrF ← getF raw "address"
  let kiF ← getF raw "keyInsight"
  let dpF ← getF raw "dataPoint"
  pure {
    id := id
    source := jsOr sourceF (.str "unknown")
    subSource := jsOr subF (jsOr sub2F (.str "unknown"))
    title := title
    text := jsOr textF (jsOr descF (.str ""))
    url := jsOr urlF (jsOr newsF (jsOr htmlF .null))
    date := jsOr dateF (jsOr createdF (jsOr collF (.str now)))
    collectedAt := jsOr collF (.str now)
    topics := dedupeTopics (jsOr topicsF (.arr []))
    sentiment := jsOr sentF (.str "neutral")
    signalType := signalType
    engagement := jsOr engF .null
    stars := jsOr starsF .null
    marketCap := jsOr mcF .null
    username := jsOr userF .null
    ticker := jsOr tickF .null
    address := jsOr addrF .null
    keyInsight := jsOr kiF .null
    dataPoint := jsOr dpF .null }

/-- The descending-date ordering used by the sort in normalizeAll, under an
uninterpreted valuation dv of new Date(string) timestamps: the comparator
(a, b) => new Date(b.date) - new Date(a.date) places a no later than b
exactly when it returns a nonpositive number. -/
def byDateDesc (dv : JSValue → ℤ) (a b : Signal) : Prop := dv b.date ≤ dv a.date

instance (dv : JSValue → ℤ) : DecidableRel (byDateDesc dv) :=
  fun _ _ => Int.decLe _ _

instance (dv : JSValue → ℤ) : IsTotal Signal (byDateDesc dv) :=
  ⟨fun a b => le_total (dv b.date) (dv a.date)⟩

instance (dv : JSValue → ℤ) : IsTrans Signal (byDateDesc dv) :=
  ⟨fun _ _ _ hab hbc => le_trans hbc hab⟩

/-- The loop body of normalizeAll: normalize each raw record in order and
keep only the first signal seen for each id, threading the seen set. -/
def normalizeLoop (now : String) : List JSValue → List String → Except String (List Signal)
  | [], _ => .ok []
  | raw :: rest, seen => do
      let signal ← normalizeSignal now raw
      if signal.id ∈ seen then normalizeLoop now rest seen
      else do
        let tl ← normalizeLoop now rest (signal.id :: seen)
        pure (signal :: tl)

/-- normalizeAll from signals.js: normalize every raw record, drop later
duplicates by id, and stable-sort by date descending. -/
def normalizeAll (dateVal : JSValue → ℤ) (now : String) (rawSignals : List JSValue) :
    Except String (List Signal) := do
  let normalized ← normalizeLoop now rawSignals []
  pure (List.insertionSort (byDateDesc dateVal) normalized)

/-- A normalized signal viewed again as a loose JavaScript object, as when
the output of normalizeAll is fed back into it.  Note the normalized shape
has a title property but no name property. -/
def Signal.toJS (s : Signal) : JSValue :=
  .obj [("id", .str s.id), ("source", s.source), ("subSource", s.subSource),
        ("title", s.title), ("text", s.text), ("url", s.url),
        ("date", s.date), ("collectedAt", s.collectedAt),
        ("topics", .arr (s.topics.map .str)), ("sentiment", s.sentiment),
        ("signalType", s.signalType), ("engagement", s.engagement),
        ("stars", s.stars), ("marketCap", s.marketCap),
        ("username", s.username), ("ticker", s.ticker),
        ("address", s.address), ("keyInsight", s.keyInsight),
        ("dataPoint", s.dataPoint)]

/-- Math.round on a rational, computed on numerator and denominator so that
it evaluates by kernel reduction; jsRound_eq_floor below identifies it with
the floor of x + 1/2, which is the value Math.round returns. -/
def jsRound (x : ℚ) : ℤ := (2 * x.num + x.den) / (2 * (x.den : ℤ))

/-- Multiplication of rationals through mkRat, again so that it evaluates by
kernel reduction; ratMul_eq below identifies it with multiplication. -/
def ratMul (a b : ℚ) : ℚ := mkRat (a.num * b.num) (a.den * b.den)

/-- The clustering output shape consumed by scoreNarratives.  Absent fields
of the loosely validated AI response are modelled as none. -/
structure Narrative where
  id : String := ""
  name : String := ""
  description : String := ""
  evidence : Option (List String) := none
  sources : Option (List String) := none
  topics : Option (List String) := none
  stage : Option String := none
  velocity : Option String := none
  confidence : Option ℚ := none
deriving DecidableEq

/-- The named sub-score breakdown attached to a scored narrative, with the
object-literal key order of the source (crossSource, evidence, velocity,
stage, confidence, signalCount). -/
structure SubScores where
  crossSource : ℤ
  evidence : ℤ
  velocity : ℤ
  stage : ℤ
  confidence : ℤ
  signalCount : ℤ
deriving DecidableEq

/-- A narrative as returned by scoreNarratives: the spread of the input
narrative plus the scores object, the total, the matching-signal count and
the rank (initialized to 0 before sorting). -/
structure ScoredNarrative where
  narrative : Narrative
  scores : SubScores
  totalScore : ℤ
  matchingSignalCount : ℕ
  rank : ℕ
deriving DecidableEq

/-- narrative.confidence || 0.5: the JavaScript default also replaces a
present confidence of 0, because 0 is falsy. -/
def confDefault (c : Option ℚ) : ℚ :=
  match c with
  | none => mkRat 1 2
  | some x => if x = 0 then mkRat 1 2 else x

/-- The signals whose topic set meets the narrative topic set
case-insensitively: signals.filter(s => s.topics.some(t =>
narrativeTopics.includes(t.toLowerCase()))). -/
def matchingSignals (signals : List Signal) (n : Narrative) : List Signal :=
  let narrativeTopics := (n.topics.getD []).map jsToLower
  signals.filter (fun s => s.topics.any (fun t => narrativeTopics.contains (jsToLower t)))

/-- The per-narrative body of the map in scoreNarratives: the six sub-scores,
their sum as totalScore, the matching-signal count, and rank 0. -/
def scoreOne (signals : List Signal) (narrative : Narrative) : ScoredNarrative :=
  let crossSource : ℤ := min (((narrative.sources.getD []).eraseDups.length : ℤ) * 8) 30
  let evidence : ℤ := min (((narrative.evidence.getD []).length : ℤ) * 8) 25
  let velocity : ℤ :=
    if narrative.velocity = some "rising" then 20
    else if narrative.velocity = some "stable" then 10
    else 5
  let stage : ℤ :=
    if narrative.stage = some "emerging" then 15
    else if narrative.stage = some "accelerating" then 12
    else 5
  let confidence : ℤ := jsRound (ratMul (confDefault narrative.confidence) 10)
  let matching := matchingSignals signals narrative
  let signalCount : ℤ := min ((matching.length / 2 : ℕ) : ℤ) 10
  { narrative := narrative
    scores := ⟨crossSource, evidence, velocity, stage, confidence, signalCount⟩
    totalScore := crossSource + evidence + velocity + stage + confidence + signalCount
    matchingSignalCount := matching.length
    rank := 0 }

/-- The descending-total-score ordering of the sort in scoreNarratives:
the comparator (a, b) => b.totalScore - a.totalScore places a no later
than b exactly when it returns a nonpositive number. -/
def byScoreDesc (a b : ScoredNarrative) : Prop := b.totalScore ≤ a.totalScore

instance : DecidableRel byScoreDesc := fun _ _ => Int.decLe _ _

instance : IsTotal ScoredNarrative byScoreDesc :=
  ⟨fun a b => le_total b.totalScore a.totalScore⟩

instance : IsTrans ScoredNarrative byScoreDesc :=
  ⟨fun _ _ _ hab hbc => le_trans hbc hab⟩

/-- The rank-assignment pass scored.forEach((n, i) => n.rank = i + 1),
starting from index i. -/
def rankFrom : ℕ → List ScoredNarrative → List ScoredNarrative
  | _, [] => []
  | i, n :: rest => { n with rank := i + 1 } :: rankFrom (i + 1) rest

/-- scoreNarratives from scoring.js: score every narrative against the
signals, stable-sort by totalScore descending, and assign 1-based ranks by
position. -/
def scoreNarratives (narratives : List Narrative) (signals : List Signal) :
    List ScoredNarrative :=
  let scored := narratives.map (scoreOne signals)
  rankFrom 0 (List.insertionSort byScoreDesc scored)

/-- The settled outcomes of the four source adapters awaited by
Promise.allSettled in runCollection: each one is independently a fulfilled
list of raw records or a rejection reason. -/
structure SettledResults (α : Type) where
  social : Except String (List α)
  onchain : Except String (List α)
  github : Except String (List α)
  research : Except String (List α)

/-- The accumulation phase of runCollection in scheduler.js: starting from
an empty array, push the value of each fulfilled result in adapter
declaration order (social, onchain, github, research); a rejected result
only produces a log line. -/
def collectRawSignals {α : Type} (r : SettledResults α) : List α :=
  [r.social, r.onchain, r.github, r.research].foldl
    (fun allRawSignals res =>
      match res with
      | .ok v => allRawSignals ++ v
      | .error _ => allRawSignals) []

/-- The value of a settled adapter outcome: its list when fulfilled, the
empty contribution when rejected. -/
def okD {α : Type} (e : Except String (List α)) : List α :=
  match e with
  | .ok v => v
  | .error _ => []

/-- The data directory as a mapping from file names to the last document
written under that name; fs.writeFileSync overwrites in place.  The
document type is NData below for narrative snapshots. -/
def Store (σ : Type) : Type := String → Option σ

/-- fs.writeFileSync: after the write, the named file holds exactly the new
document and every other file is untouched. -/
def writeFile {σ : Type} (name : String) (d : σ) (s : Store σ) : Store σ :=
  fun f => if f = name then some d else s f

/-- The timestamp sanitizer of the snapshot file names:
toISOString().replace of colons and dots by dashes. -/
def sanitizeTs (ts : String) : String :=
  ⟨ts.data.map (fun c => if c = ':' || c = '.' then '-' else c)⟩

/-- The timestamp-derived immutable file name narratives_TIMESTAMP.json. -/
def narrFileName (now : String) : String :=
  "narratives_" ++ sanitizeTs now ++ ".json"

/-- The well-known name of the latest alias for narrative snapshots. -/
def narrLatestName : String := "narratives_latest.json"

/-- The document JSON.stringify serializes in saveNarratives: timestamp,
narrativeCount, stats, narratives.  The narrative and stats payload types
are parameters, as the store never inspects them. -/
structure NData (α β : Type) where
  timestamp : String
  narrativeCount : ℕ
  stats : β
  narratives : List α
deriving DecidableEq

/-- The document variable data of saveNarratives: timestamp, count, stats
and the narratives themselves. -/
def narrData {α β : Type} (now : String) (narratives : List α) (stats : β) : NData α β :=
  ⟨now, narratives.length, stats, narratives⟩

/-- saveNarratives from store.js: write the immutable timestamp-named
record first, then overwrite the latest alias with the same content.  The
parameter now stands for the toISOString() value of the call. -/
def saveNarratives {α β : Type} (now : String) (narratives : List α) (stats : β)
    (s : Store (NData α β)) : Store (NData α β) :=
  writeFile narrLatestName (narrData now narratives stats)
    (writeFile (narrFileName now) (narrData now narratives stats) s)

/-- loadLatestNarratives from store.js: the latest alias document, or none
when it does not exist. -/
def loadLatestNarratives {α β : Type} (s : Store (NData α β)) : Option (NData α β) :=
  s narrLatestName

/-- The store invariant that the latest alias never points at a snapshot
absent from the durable set: whatever the alias holds is also held by some
other (immutable) file. -/
def latestPointsAtDurable {α β : Type} (s : Store (NData α β)) : Prop :=
  ∀ d, s narrLatestName = some d →
    ∃ f, f ≠ narrLatestName ∧ s f = some d

/-- A minimal signal carrying only topics, for concrete scoring scenarios
(every other field keeps its structure default). -/
def topicSignal (ts : List String) : Signal := { topics := ts }

/-- A raw record whose fingerprint key fields survive normalization:
source, subSource and url are present as nonempty strings, so the id key is
taken from url, which the normalized shape carries verbatim. -/
def GoodRaw (raw : JSValue) : Prop :=
  (∃ a, a ≠ "" ∧ getF raw "source" = .ok (.str a)) ∧
  (∃ b, b ≠ "" ∧ getF raw "subSource" = .ok (.str b)) ∧
  (∃ u, u ≠ "" ∧ getF raw "url" = .ok (.str u))

/-- A concrete raw record whose fingerprint key fields are nonempty
strings, for the renormalization scenario. -/
def sampleKolRaw : JSValue :=
  .obj [("source", .str "social"), ("subSource", .str "kol"),
        ("url", .str "https://a")]

/-- The signal sampleKolRaw normalizes to at the fixed sample clock. -/
def sampleKolSignal : Signal :=
  { id := "sig_" ++ toBase36 (hashString "social|kol|https://a").natAbs,
    source := .str "social", subSource := .str "kol",
    title := .str "Untitled Signal", text := .str "", url := .str "https://a",
    date := .str "2024-01-01T00:00:00.000Z",
    collectedAt := .str "2024-01-01T00:00:00.000Z", topics := [],
    sentiment := .str "neutral", signalType := .str "kol_signal",
    engagement := .null, stars := .null, marketCap := .null,
    username := .null, ticker := .null, address := .null,
    keyInsight := .null, dataPoint := .null }

/-! Bridging lemmas between the kernel-reducible arithmetic helpers and
their idiomatic characterizations. -/

theorem ratMul_eq (a b : ℚ) : ratMul a b = a * b := by
  unfold ratMul
  rw [Rat.mkRat_eq_div]
  push_cast
  conv_rhs => rw [← Rat.num_div_den a, ← Rat.num_div_den b]
  rw [div_mul_div_comm]

theorem jsRound_eq_floor (x : ℚ) : jsRound x = ⌊x + 1 / 2⌋ := by
  have hd : ((x.den : ℚ)) ≠ 0 := Nat.cast_ne_zero.mpr x.den_nz
  have h1 : x + 1 / 2 = ((2 * x.num + (x.den : ℤ) : ℤ) : ℚ) / ((2 * x.den : ℕ) : ℚ) := by
    push_cast
    conv_lhs => rw [← Rat.num_div_den x]
    field_simp
    ring
  rw [h1, Rat.floor_intCast_div_natCast]
  unfold jsRound
  push_cast
  rfl

/-- Inversion for a successful bind in the Except monad. -/
theorem bind_ok {α β : Type} {e : Except String α} {f : α → Except String β} {b : β}
    (h : (e >>= f) = .ok b) : ∃ a, e = .ok a ∧ f a = .ok b := by
  cases e with
  | ok a => exact ⟨a, rfl, h⟩
  | error m => simp [Bind.bind, Except.bind] at h

/-! Collection orchestrator lemmas and the snapshot store development need
no intermediate lemmas; the claim theorems about them follow directly. -/

/-- C8: for every outcome assignment to the four source adapters, the
collection step completes (it is a total function of the settled
outcomes, mirroring the Promise.allSettled join that never rejects), its
output is the concatenation of the successful adapters' results in adapter
declaration order, so its size is the sum of the successful adapters'
sizes with failed adapters contributing zero records; and when every
adapter fails the output is the empty record set. -/
theorem collectRawSignals_partial_failure {α : Type} (r : SettledResults α) :
    collectRawSignals r
        = okD r.social ++ okD r.onchain ++ okD r.github ++ okD r.research ∧
    (collectRawSignals r).length
        = (okD r.social).length + (okD r.onchain).length
          + (okD r.github).length + (okD r.research).length ∧
    (r.social.isOk = false → r.onchain.isOk = false → r.github.isOk = false →
      r.research.isOk = false → collectRawSignals r = []) := by
  obtain ⟨s, o, g, re⟩ := r
  refine ⟨?_, ?_, ?_⟩ <;>
    cases s <;> cases o <;> cases g <;> cases re <;>
      simp [collectRawSignals, okD, Except.isOk, Except.toBool, Nat.add_assoc]

/-- Witness for C8 at a concrete all-failed outcome: the collected record
set is empty. -/
theorem collectRawSignals_partial_failure_witness :
    collectRawSignals
      (SettledResults.mk (α := ℕ)
        (.error "social down") (.error "rpc down")
        (.error "rate limited") (.error "timeout")) = [] :=
  (collectRawSignals_partial_failure _).2.2 rfl rfl rfl rfl

/-- C9: starting from a store satisfying the latest-alias invariant, after
two saveNarratives calls with fresh, distinct timestamp-derived file names,
both historical records remain individually retrievable with their original
content, loadLatestNarratives returns exactly the second call's content, and
the invariant that the latest alias points at durably stored content holds
at every intermediate state, in particular between the immutable write and
the alias overwrite of each call. -/
theorem saveNarratives_snapshot_immutability {α β : Type}
    (s0 : Store (NData α β)) (t1 t2 : String)
    (l1 l2 : List α) (st1 st2 : β)
    (h0 : latestPointsAtDurable s0)
    (hfresh1 : s0 (narrFileName t1) = none)
    (hne : narrFileName t1 ≠ narrFileName t2)
    (hl1 : narrFileName t1 ≠ narrLatestName)
    (hl2 : narrFileName t2 ≠ narrLatestName) :
    saveNarratives t2 l2 st2 (saveNarratives t1 l1 st1 s0) (narrFileName t1)
        = some ⟨t1, l1.length, st1, l1⟩ ∧
    saveNarratives t2 l2 st2 (saveNarratives t1 l1 st1 s0) (narrFileName t2)
        = some ⟨t2, l2.length, st2, l2⟩ ∧
    loadLatestNarratives (saveNarratives t2 l2 st2 (saveNarratives t1 l1 st1 s0))
        = some ⟨t2, l2.length, st2, l2⟩ ∧
    latestPointsAtDurable (writeFile (narrFileName t1) ⟨t1, l1.length, st1, l1⟩ s0) ∧
    latestPointsAtDurable (saveNarratives t1 l1 st1 s0) ∧
    latestPointsAtDurable
      (writeFile (narrFileName t2) ⟨t2, l2.length, st2, l2⟩ (saveNarratives t1 l1 st1 s0)) ∧
    latestPointsAtDurable (saveNarratives t2 l2 st2 (saveNarratives t1 l1 st1 s0)) := by
  refine ⟨?_, ?_, ?_, ?_, ?_, ?_, ?_⟩
  · simp [saveNarratives, narrData, writeFile, hl1, hne]
  · simp [saveNarratives, narrData, writeFile, hl2]
  · simp [loadLatestNarratives, saveNarratives, narrData, writeFile]
  · intro d hd
    simp only [writeFile] at hd
    rw [if_neg (fun h : narrLatestName = narrFileName t1 => hl1 h.symm)] at hd
    obtain ⟨f, hfne, hf⟩ := h0 d hd
    have hf1 : f ≠ narrFileName t1 := by
      intro h
      rw [h, hfresh1] at hf
      exact Option.noConfusion hf
    refine ⟨f, hfne, ?_⟩
    simp only [writeFile]
    rw [if_neg hf1]
    exact hf
  · intro d hd
    simp only [saveNarratives, writeFile] at hd
    simp at hd
    refine ⟨narrFileName t1, hl1, ?_⟩
    simp [saveNarratives, writeFile, hl1, ← hd]
  · intro d hd
    simp only [writeFile] at hd
    rw [if_neg (fun h : narrLatestName = narrFileName t2 => hl2 h.symm)] at hd
    simp only [saveNarratives, writeFile] at hd
    simp at hd
    refine ⟨narrFileName t1, hl1, ?_⟩
    simp [saveNarratives, writeFile, hne, hl1, ← hd]
  · intro d hd
    simp only [saveNarratives, writeFile] at hd
    simp at hd
    refine ⟨narrFileName t2, hl2, ?_⟩
    simp [saveNarratives, writeFile, hl2, ← hd]

/-! Scoring engine lemmas. -/

theorem rankFrom_length (i : ℕ) (l : List ScoredNarrative) :
    (rankFrom i l).length = l.length := by
  induction l generalizing i with
  | nil => rfl
  | cons a tl ih => simp [rankFrom, ih]

theorem rankFrom_getq (i j : ℕ) (l : List ScoredNarrative) :
    (rankFrom i l).get? j = (l.get? j).map (fun m => { m with rank := i + j + 1 }) := by
  induction l generalizing i j with
  | nil => simp [rankFrom]
  | cons a tl ih =>
    cases j with
    | zero => simp [rankFrom]
    | succ j =>
      simp only [rankFrom, List.get?_cons_succ]
      rw [ih (i + 1) j]
      have e : i + 1 + j + 1 = i + (j + 1) + 1 := by omega
      rw [e]

theorem rankFrom_mem {m : ScoredNarrative} {i : ℕ} {l : List ScoredNarrative}
    (h : m ∈ rankFrom i l) : ∃ m₀ ∈ l, ∃ k, m = { m₀ with rank := k } := by
  induction l generalizing i with
  | nil => simp [rankFrom] at h
  | cons a tl ih =>
    simp only [rankFrom, List.mem_cons] at h
    rcases h with h | h
    · exact ⟨a, List.mem_cons_self a tl, i + 1, h⟩
    · obtain ⟨m₀, hm₀, k, hk⟩ := ih h
      exact ⟨m₀, List.mem_cons_of_mem a hm₀, k, hk⟩

theorem rankFrom_map_narrative (i : ℕ) (l : List ScoredNarrative) :
    (rankFrom i l).map (fun m => m.narrative) = l.map (fun m => m.narrative) := by
  induction l generalizing i with
  | nil => rfl
  | cons a tl ih => simp [rankFrom, ih]

/-- Every element of the scored output is a rank-adjusted copy of scoreOne
applied to some input narrative. -/
theorem mem_scoreNarratives {narratives : List Narrative} {signals : List Signal}
    {m : ScoredNarrative} (h : m ∈ scoreNarratives narratives signals) :
    ∃ n ∈ narratives, ∃ k, m = { scoreOne signals n with rank := k } := by
  have e : scoreNarratives narratives signals
      = rankFrom 0 (List.insertionSort byScoreDesc (narratives.map (scoreOne signals))) := rfl
  rw [e] at h
  obtain ⟨m₀, hm₀, k, hk⟩ := rankFrom_mem h
  have hmem : m₀ ∈ narratives.map (scoreOne signals) :=
    (List.perm_insertionSort byScoreDesc _).mem_iff.mp hm₀
  obtain ⟨n, hn, rfl⟩ := List.mem_map.mp hmem
  exact ⟨n, hn, k, hk⟩

/-- The defaulted confidence lands in the unit interval whenever the raw
confidence does when present. -/
theorem confDefault_mem (c : Option ℚ) (hc : ∀ x, c = some x → 0 ≤ x ∧ x ≤ 1) :
    0 ≤ confDefault c ∧ confDefault c ≤ 1 := by
  cases c with
  | none =>
    simp only [confDefault]
    rw [Rat.mkRat_eq_div]
    norm_num
  | some x =>
    simp only [confDefault]
    by_cases hx : x = 0
    · rw [if_pos hx, Rat.mkRat_eq_div]
      norm_num
    · rw [if_neg hx]
      exact hc x rfl

/-- Bounds and exact-sum shape of one scored narrative. -/
theorem scoreOne_bounds (signals : List Signal) (n : Narrative)
    (hc : ∀ c, n.confidence = some c → 0 ≤ c ∧ c ≤ 1) :
    (scoreOne signals n).scores.crossSource ≤ 30 ∧
    (scoreOne signals n).scores.evidence ≤ 25 ∧
    (scoreOne signals n).scores.velocity ≤ 20 ∧
    (scoreOne signals n).scores.stage ≤ 15 ∧
    (scoreOne signals n).scores.confidence ≤ 10 ∧
    (scoreOne signals n).scores.signalCount ≤ 10 ∧
    (scoreOne signals n).totalScore
      = (scoreOne signals n).scores.crossSource + (scoreOne signals n).scores.evidence
        + (scoreOne signals n).scores.velocity + (scoreOne signals n).scores.stage
        + (scoreOne signals n).scores.confidence + (scoreOne signals n).scores.signalCount ∧
    (scoreOne signals n).totalScore ≤ 110 := by
  have hcross : (scoreOne signals n).scores.crossSource ≤ 30 := min_le_right _ _
  have hev : (scoreOne signals n).scores.evidence ≤ 25 := min_le_right _ _
  have hvel : (scoreOne signals n).scores.velocity ≤ 20 := by
    show (if n.velocity = some "rising" then (20 : ℤ)
      else if n.velocity = some "stable" then 10 else 5) ≤ 20
    split_ifs <;> norm_num
  have hst : (scoreOne signals n).scores.stage ≤ 15 := by
    show (if n.stage = some "emerging" then (15 : ℤ)
      else if n.stage = some "accelerating" then 12 else 5) ≤ 15
    split_ifs <;> norm_num
  have hcf : (scoreOne signals n).scores.confidence ≤ 10 := by
    show jsRound (ratMul (confDefault n.confidence) 10) ≤ 10
    rw [jsRound_eq_floor, ratMul_eq]
    obtain ⟨hd0, hd1⟩ := confDefault_mem n.confidence hc
    have hlt : confDefault n.confidence * 10 + 1 / 2 < ((11 : ℤ) : ℚ) := by
      push_cast
      linarith
    have := Int.floor_lt.mpr hlt
    omega
  have hsc : (scoreOne signals n).scores.signalCount ≤ 10 := min_le_right _ _
  have htot : (scoreOne signals n).totalScore
      = (scoreOne signals n).scores.crossSource + (scoreOne signals n).scores.evidence
        + (scoreOne signals n).scores.velocity + (scoreOne signals n).scores.stage
        + (scoreOne signals n).scores.confidence + (scoreOne signals n).scores.signalCount := rfl
  refine ⟨hcross, hev, hvel, hst, hcf, hsc, htot, ?_⟩
  rw [htot]
  linarith

/-- C1: for every narrative whose confidence, when present, lies in [0, 1],
each of the six sub-scores computed by scoreNarratives is within its
documented maximum (crossSource at most 30, evidence at most 25, velocity
at most 20, stage at most 15, confidence at most 10, signalCount at most
10), and totalScore equals the exact sum of exactly those six sub-scores,
hence never exceeds 110. -/
theorem scoreNarratives_score_bounds (narratives : List Narrative) (signals : List Signal)
    (hconf : ∀ n ∈ narratives, ∀ c, n.confidence = some c → 0 ≤ c ∧ c ≤ 1) :
    ∀ m ∈ scoreNarratives narratives signals,
      m.scores.crossSource ≤ 30 ∧ m.scores.evidence ≤ 25 ∧
      m.scores.velocity ≤ 20 ∧ m.scores.stage ≤ 15 ∧
      m.scores.confidence ≤ 10 ∧ m.scores.signalCount ≤ 10 ∧
      m.totalScore = m.scores.crossSource + m.scores.evidence + m.scores.velocity
        + m.scores.stage + m.scores.confidence + m.scores.signalCount ∧
      m.totalScore ≤ 110 := by
  intro m hm
  obtain ⟨n, hn, k, rfl⟩ := mem_scoreNarratives hm
  exact scoreOne_bounds signals n (hconf n hn)

/-- Witness for C1 at one concrete narrative with no confidence field. -/
theorem scoreNarratives_score_bounds_witness :
    ({ narrative := { name := "tie" }, scores := ⟨0, 0, 5, 5, 5, 0⟩, totalScore := 15,
       matchingSignalCount := 0, rank := 1 } : ScoredNarrative).scores.crossSource ≤ 30 ∧
    ({ narrative := { name := "tie" }, scores := ⟨0, 0, 5, 5, 5, 0⟩, totalScore := 15,
       matchingSignalCount := 0, rank := 1 } : ScoredNarrative).scores.evidence ≤ 25 ∧
    ({ narrative := { name := "tie" }, scores := ⟨0, 0, 5, 5, 5, 0⟩, totalScore := 15,
       matchingSignalCount := 0, rank := 1 } : ScoredNarrative).scores.velocity ≤ 20 ∧
    ({ narrative := { name := "tie" }, scores := ⟨0, 0, 5, 5, 5, 0⟩, totalScore := 15,
       matchingSignalCount := 0, rank := 1 } : ScoredNarrative).scores.stage ≤ 15 ∧
    ({ narrative := { name := "tie" }, scores := ⟨0, 0, 5, 5, 5, 0⟩, totalScore := 15,
       matchingSignalCount := 0, rank := 1 } : ScoredNarrative).scores.confidence ≤ 10 ∧
    ({ narrative := { name := "tie" }, scores := ⟨0, 0, 5, 5, 5, 0⟩, totalScore := 15,
       matchingSignalCount := 0, rank := 1 } : ScoredNarrative).scores.signalCount ≤ 10 ∧
    ({ narrative := { name := "tie" }, scores := ⟨0, 0, 5, 5, 5, 0⟩, totalScore := 15,
       matchingSignalCount := 0, rank := 1 } : ScoredNarrative).totalScore
      = ({ narrative := { name := "tie" }, scores := ⟨0, 0, 5, 5, 5, 0⟩, totalScore := 15,
           matchingSignalCount := 0, rank := 1 } : ScoredNarrative).scores.crossSource
        + ({ narrative := { name := "tie" }, scores := ⟨0, 0, 5, 5, 5, 0⟩, totalScore := 15,
             matchingSignalCount := 0, rank := 1 } : ScoredNarrative).scores.evidence
        + ({ narrative := { name := "tie" }, scores := ⟨0, 0, 5, 5, 5, 0⟩, totalScore := 15,
             matchingSignalCount := 0, rank := 1 } : ScoredNarrative).scores.velocity
        + ({ narrative := { name := "tie" }, scores := ⟨0, 0, 5, 5, 5, 0⟩, totalScore := 15,
             matchingSignalCount := 0, rank := 1 } : ScoredNarrative).scores.stage
        + ({ narrative := { name := "tie" }, scores := ⟨0, 0, 5, 5, 5, 0⟩, totalScore := 15,
             matchingSignalCount := 0, rank := 1 } : ScoredNarrative).scores.confidence
        + ({ narrative := { name := "tie" }, scores := ⟨0, 0, 5, 5, 5, 0⟩, totalScore := 15,
             matchingSignalCount := 0, rank := 1 } : ScoredNarrative).scores.signalCount ∧
    ({ narrative := { name := "tie" }, scores := ⟨0, 0, 5, 5, 5, 0⟩, totalScore := 15,
       matchingSignalCount := 0, rank := 1 } : ScoredNarrative).totalScore ≤ 110 :=
  scoreNarratives_score_bounds [{ name := "tie" }] []
    (fun n hn c hc => by
      rw [List.mem_singleton] at hn
      subst hn
      exact Option.noConfusion hc)
    _ (by decide)

/-- C2 counterexample: on two identical narratives both sub-scoring to a
total of 15, the code assigns ranks 1 and 2 rather than the same dense
rank, so narratives with equal totalScore do not receive the same rank. -/
theorem scoreNarratives_rank_counterexample :
    (scoreNarratives [{ name := "tie" }, { name := "tie" }] []).map
        (fun m => (m.totalScore, m.rank)) = [(15, 1), (15, 2)] ∧
    ¬ (∀ m₁ ∈ scoreNarratives [{ name := "tie" }, { name := "tie" }] [],
        ∀ m₂ ∈ scoreNarratives [{ name := "tie" }, { name := "tie" }] [],
        m₁.totalScore = m₂.totalScore → m₁.rank = m₂.rank) := by
  refine ⟨by decide, by decide⟩

/-- C2 as amended: the output of scoreNarratives is sorted by totalScore
descending (adjacent output elements are monotone), the stable sort keeps
the input relative order of narratives with equal totalScore, and the rank
field is the 1-based output position (consecutive, not dense: tied
narratives receive successive distinct ranks). -/
theorem scoreNarratives_sorted_ranked (narratives : List Narrative) (signals : List Signal) :
    (∀ i : ℕ, ∀ a b : ScoredNarrative,
      (scoreNarratives narratives signals).get? i = some a →
      (scoreNarratives narratives signals).get? (i + 1) = some b →
      b.totalScore ≤ a.totalScore) ∧
    (∀ i : ℕ, ∀ a : ScoredNarrative,
      (scoreNarratives narratives signals).get? i = some a → a.rank = i + 1) ∧
    (∀ a b : ScoredNarrative,
      List.Sublist [a, b] (narratives.map (scoreOne signals)) →
      a.totalScore = b.totalScore →
      List.Sublist [a, b]
        (List.insertionSort byScoreDesc (narratives.map (scoreOne signals)))) := by
  have e : scoreNarratives narratives signals
      = rankFrom 0 (List.insertionSort byScoreDesc (narratives.map (scoreOne signals))) := rfl
  have hp : List.Pairwise byScoreDesc
      (List.insertionSort byScoreDesc (narratives.map (scoreOne signals))) :=
    List.sorted_insertionSort byScoreDesc (narratives.map (scoreOne signals))
  refine ⟨?_, ?_, ?_⟩
  · intro i a b ha hb
    rw [e, rankFrom_getq] at ha hb
    obtain ⟨a0, ha0, rfl⟩ := Option.map_eq_some'.mp ha
    obtain ⟨b0, hb0, rfl⟩ := Option.map_eq_some'.mp hb
    rw [List.get?_eq_some] at ha0 hb0
    obtain ⟨hia, ha0⟩ := ha0
    obtain ⟨hib, hb0⟩ := hb0
    have hle := List.pairwise_iff_get.mp hp ⟨i, hia⟩ ⟨i + 1, hib⟩
      (Fin.mk_lt_mk.mpr (Nat.lt_succ_self i))
    rw [ha0, hb0] at hle
    exact hle
  · intro i a ha
    rw [e, rankFrom_getq] at ha
    obtain ⟨a0, ha0, rfl⟩ := Option.map_eq_some'.mp ha
    show 0 + i + 1 = i + 1
    omega
  · intro a b hsub heq
    refine List.sublist_insertionSort ?_ hsub
    refine List.pairwise_cons.mpr ⟨?_, List.pairwise_singleton _ _⟩
    intro y hy
    rw [List.mem_singleton] at hy
    subst hy
    exact le_of_eq heq.symm

/-- Witness for C2 as amended: at a two-narrative input, adjacent outputs
are monotone, the first rank is 1, and the stability clause applies to the
two equal-score scored entries. -/
theorem scoreNarratives_sorted_ranked_witness :
    ({ narrative := { name := "tie" }, scores := ⟨0, 0, 5, 5, 5, 0⟩, totalScore := 15,
       matchingSignalCount := 0, rank := 2 } : ScoredNarrative).totalScore
      ≤ ({ narrative := { name := "tie" }, scores := ⟨0, 0, 5, 5, 5, 0⟩, totalScore := 15,
           matchingSignalCount := 0, rank := 1 } : ScoredNarrative).totalScore ∧
    ({ narrative := { name := "tie" }, scores := ⟨0, 0, 5, 5, 5, 0⟩, totalScore := 15,
       matchingSignalCount := 0, rank := 1 } : ScoredNarrative).rank = 0 + 1 ∧
    List.Sublist [scoreOne [] { name := "tie" }, scoreOne [] { name := "tie" }]
      (List.insertionSort byScoreDesc
        ([{ name := "tie" }, { name := "tie" }].map (scoreOne []))) :=
  ⟨(scoreNarratives_sorted_ranked [{ name := "tie" }, { name := "tie" }] []).1 0 _ _
     (by decide) (by decide),
   (scoreNarratives_sorted_ranked [{ name := "tie" }, { name := "tie" }] []).2.1 0 _
     (by decide),
   (scoreNarratives_sorted_ranked [{ name := "tie" }, { name := "tie" }] []).2.2
     (scoreOne [] { name := "tie" }) (scoreOne [] { name := "tie" }) (by decide) rfl⟩

/-- C3: the concrete scenario of one narrative with two source categories,
three evidence points, rising velocity, emerging stage, confidence 0.8
(the rational 4/5) against five signals of which exactly four share a topic
case-insensitively: sub-scores 16, 24, 20, 15, 8 and 2, four matching
signals, and totalScore 85. -/
theorem scoreNarratives_concrete_scenario :
    (scoreNarratives
        [{ name := "AI agents", sources := some ["social", "onchain"],
           evidence := some ["a", "b", "c"], velocity := some "rising",
           stage := some "emerging", confidence := some (mkRat 4 5),
           topics := some ["AI"] }]
        [topicSignal ["ai"], topicSignal ["ai", "defi"], topicSignal ["solana", "ai"],
         topicSignal ["AI"], topicSignal ["defi"]]).map
        (fun m => (m.scores, m.totalScore, m.matchingSignalCount)) =
      [(⟨16, 24, 20, 15, 8, 2⟩, 85, 4)] ∧
    (mkRat 4 5 : ℚ) = 8 / 10 := by
  refine ⟨by decide, ?_⟩
  rw [Rat.mkRat_eq_div]
  norm_num

/-- C4 counterexample: a present confidence of 0 lies in [0, 1], yet the
confidence sub-score is the defaulted 5, not round(0 * 10) = 0, because the
JavaScript default confidence || 0.5 also replaces the falsy value 0. -/
theorem scoreNarratives_confidence_counterexample :
    (scoreNarratives [{ name := "zero", confidence := some 0 }] []).map
        (fun m => m.scores.confidence) = [5] ∧
    (⌊(0 : ℚ) * 10 + 1 / 2⌋ : ℤ) = 0 ∧ (5 : ℤ) ≠ 0 := by
  refine ⟨by decide, by norm_num, by norm_num⟩

/-- C4 as amended: the confidence sub-score equals round(confidence * 10)
whenever the confidence field is present and nonzero, and equals 5 (the
rounding of the 0.5 default times 10) when the field is absent or when the
present value is 0, since 0 is falsy in the defaulting expression. -/
theorem scoreNarratives_confidence_rule (narratives : List Narrative) (signals : List Signal) :
    ∀ m ∈ scoreNarratives narratives signals,
      (∀ c, m.narrative.confidence = some c → c ≠ 0 →
        m.scores.confidence = ⌊c * 10 + 1 / 2⌋) ∧
      ((m.narrative.confidence = none ∨ m.narrative.confidence = some 0) →
        m.scores.confidence = 5) := by
  intro m hm
  obtain ⟨n, hn, k, rfl⟩ := mem_scoreNarratives hm
  constructor
  · intro c hc hc0
    have hc2 : n.confidence = some c := hc
    show jsRound (ratMul (confDefault n.confidence) 10) = ⌊c * 10 + 1 / 2⌋
    rw [jsRound_eq_floor, ratMul_eq, hc2]
    simp only [confDefault]
    rw [if_neg hc0]
  · intro hcase
    have hcase2 : n.confidence = none ∨ n.confidence = some 0 := hcase
    show jsRound (ratMul (confDefault n.confidence) 10) = 5
    have hd : confDefault n.confidence = mkRat 1 2 := by
      rcases hcase2 with h | h <;> rw [h] <;> rfl
    rw [hd]
    decide

/-- Witness for C4 as amended, at a present nonzero confidence of 4/5. -/
theorem scoreNarratives_confidence_rule_witness :
    ({ narrative := { name := "c", confidence := some (mkRat 4 5) },
       scores := ⟨0, 0, 5, 5, 8, 0⟩, totalScore := 18,
       matchingSignalCount := 0, rank := 1 } : ScoredNarrative).scores.confidence
      = ⌊(mkRat 4 5 : ℚ) * 10 + 1 / 2⌋ :=
  (scoreNarratives_confidence_rule [{ name := "c", confidence := some (mkRat 4 5) }] []
      _ (by decide)).1 (mkRat 4 5) rfl (by decide)

/-- C10: the output of scoreNarratives is a permutation of the input
narratives in which every element carries its input narrative unchanged
(the spread copies every field), with only the scores, totalScore,
matchingSignalCount and rank fields added: each output element is exactly
scoreOne of its own narrative with the rank overwritten. -/
theorem scoreNarratives_frame (narratives : List Narrative) (signals : List Signal) :
    ((scoreNarratives narratives signals).map (fun m => m.narrative)).Perm narratives ∧
    ∀ m ∈ scoreNarratives narratives signals,
      m = { scoreOne signals m.narrative with rank := m.rank } := by
  constructor
  · have e : scoreNarratives narratives signals
        = rankFrom 0 (List.insertionSort byScoreDesc (narratives.map (scoreOne signals))) := rfl
    rw [e, rankFrom_map_narrative]
    have hperm := (List.perm_insertionSort byScoreDesc
      (narratives.map (scoreOne signals))).map (fun m => m.narrative)
    refine hperm.trans ?_
    rw [List.map_map]
    have hid : ((fun m => m.narrative) ∘ scoreOne signals) = id := by
      funext n
      rfl
    rw [hid, List.map_id]
  · intro m hm
    obtain ⟨n, hn, k, rfl⟩ := mem_scoreNarratives hm
    rfl

/-- Witness for C10 at a singleton input: the single output element is
scoreOne of its narrative with rank 1. -/
theorem scoreNarratives_frame_witness :
    ({ narrative := { name := "tie" }, scores := ⟨0, 0, 5, 5, 5, 0⟩, totalScore := 15,
       matchingSignalCount := 0, rank := 1 } : ScoredNarrative)
      = { scoreOne [] ({ name := "tie" } : Narrative) with rank := 1 } :=
  (scoreNarratives_frame [{ name := "tie" }] []).2 _ (by decide)

/-- Witness for C9 at two concrete ISO timestamps over an empty store. -/
theorem saveNarratives_snapshot_immutability_witness :
    saveNarratives "2024-01-02T00:00:00.000Z" [20] 2
        (saveNarratives "2024-01-01T00:00:00.000Z" [10] (1 : ℕ)
          (fun _ => none : Store (NData ℕ ℕ)))
        (narrFileName "2024-01-01T00:00:00.000Z")
      = some ⟨"2024-01-01T00:00:00.000Z", 1, 1, [10]⟩ ∧
    saveNarratives "2024-01-02T00:00:00.000Z" [20] 2
        (saveNarratives "2024-01-01T00:00:00.000Z" [10] (1 : ℕ)
          (fun _ => none : Store (NData ℕ ℕ)))
        (narrFileName "2024-01-02T00:00:00.000Z")
      = some ⟨"2024-01-02T00:00:00.000Z", 1, 2, [20]⟩ ∧
    loadLatestNarratives
        (saveNarratives "2024-01-02T00:00:00.000Z" [20] 2
          (saveNarratives "2024-01-01T00:00:00.000Z" [10] (1 : ℕ)
            (fun _ => none : Store (NData ℕ ℕ))))
      = some ⟨"2024-01-02T00:00:00.000Z", 1, 2, [20]⟩ := by
  have h := saveNarratives_snapshot_immutability
    (fun _ => none : Store (NData ℕ ℕ))
    "2024-01-01T00:00:00.000Z" "2024-01-02T00:00:00.000Z" [10] [20] 1 2
    (fun d hd => Option.noConfusion hd) rfl
    (by decide) (by decide) (by decide)
  exact ⟨h.1, h.2.1, h.2.2.1⟩

/-! Normalizer lemmas. -/

theorem exceptOk_bind {α β : Type} (a : α) (f : α → Except String β) :
    (Except.ok a >>= f) = f a := rfl

theorem exceptPure_eq_ok {α : Type} (a : α) :
    (pure a : Except String α) = Except.ok a := rfl

/-- Property access on any object succeeds, with the looked-up value or
undefined. -/
theorem getF_obj (fields : List (String × JSValue)) (name : String) :
    getF (.obj fields) name = .ok ((fields.lookup name).getD .undefinedV) := by
  cases h : fields.lookup name <;> simp [getF, h]

/-- The falsy value of a logical-or whose left operand is a nonempty string
literal is the string itself. -/
theorem jsOr_str {t : String} (x : JSValue) (ht : t ≠ "") :
    jsOr (.str t) x = .str t := by
  simp [jsOr, truthy, ht]

/-- Full inversion of a successful normalizeSignal run: each fallible
subcomputation succeeded and the resulting signal is the record of the
defaulted field values. -/
theorem normalizeSignal_ok_elim {now : String} {raw : JSValue} {s : Signal}
    (h : normalizeSignal now raw = .ok s) :
    ∃ i srcF subF sub2F ttl textF descF urlF newsF htmlF dateF createdF collF
      topicsF sentF sty engF starsF mcF userF tickF addrF kiF dpF,
      generateId raw = .ok i ∧
      getF raw "source" = .ok srcF ∧
      getF raw "subSource" = .ok subF ∧
      getF raw "sub_source" = .ok sub2F ∧
      titleValue raw = .ok ttl ∧
      getF raw "text" = .ok textF ∧
      getF raw "description" = .ok descF ∧
      getF raw "url" = .ok urlF ∧
      getF raw "news_url" = .ok newsF ∧
      getF raw "html_url" = .ok htmlF ∧
      getF raw "date" = .ok dateF ∧
      getF raw "createdAt" = .ok createdF ∧
      getF raw "collectedAt" = .ok collF ∧
      getF raw "topics" = .ok topicsF ∧
      getF raw "sentiment" = .ok sentF ∧
      signalTypeValue raw = .ok sty ∧
      getF raw "engagement" = .ok engF ∧
      getF raw "stars" = .ok starsF ∧
      getF raw "marketCap" = .ok mcF ∧
      getF raw "username" = .ok userF ∧
      getF raw "ticker" = .ok tickF ∧
      getF raw "address" = .ok addrF ∧
      getF raw "keyInsight" = .ok kiF ∧
      getF raw "dataPoint" = .ok dpF ∧
      s = { id := i, source := jsOr srcF (.str "unknown"),
            subSource := jsOr subF (jsOr sub2F (.str "unknown")),
            title := ttl, text := jsOr textF (jsOr descF (.str "")),
            url := jsOr urlF (jsOr newsF (jsOr htmlF .null)),
            date := jsOr dateF (jsOr createdF (jsOr collF (.str now))),
            collectedAt := jsOr collF (.str now),
            topics := dedupeTopics (jsOr topicsF (.arr [])),
            sentiment := jsOr sentF (.str "neutral"), signalType := sty,
            engagement := jsOr engF .null, stars := jsOr starsF .null,
            marketCap := jsOr mcF .null, username := jsOr userF .null,
            ticker := jsOr tickF .null, address := jsOr addrF .null,
            keyInsight := jsOr kiF .null, dataPoint := jsOr dpF .null } := by
  unfold normalizeSignal at h
  obtain ⟨i, e1, h⟩ := bind_ok h
  obtain ⟨srcF, e2, h⟩ := bind_ok h
  obtain ⟨subF, e3, h⟩ := bind_ok h
  obtain ⟨sub2F, e4, h⟩ := bind_ok h
  obtain ⟨ttl, e5, h⟩ := bind_ok h
  obtain ⟨textF, e6, h⟩ := bind_ok h
  obtain ⟨descF, e7, h⟩ := bind_ok h
  obtain ⟨urlF, e8, h⟩ := bind_ok h
  obtain ⟨newsF, e9, h⟩ := bind_ok h
  obtain ⟨htmlF, e10, h⟩ := bind_ok h
  obtain ⟨dateF, e11, h⟩ := bind_ok h
  obtain ⟨createdF, e12, h⟩ := bind_ok h
  obtain ⟨collF, e13, h⟩ := bind_ok h
  obtain ⟨topicsF, e14, h⟩ := bind_ok h
  obtain ⟨sentF, e15, h⟩ := bind_ok h
  obtain ⟨sty, e16, h⟩ := bind_ok h
  obtain ⟨engF, e17, h⟩ := bind_ok h
  obtain ⟨starsF, e18, h⟩ := bind_ok h
  obtain ⟨mcF, e19, h⟩ := bind_ok h
  obtain ⟨userF, e20, h⟩ := bind_ok h
  obtain ⟨tickF, e21, h⟩ := bind_ok h
  obtain ⟨addrF, e22, h⟩ := bind_ok h
  obtain ⟨kiF, e23, h⟩ := bind_ok h
  obtain ⟨dpF, e24, h⟩ := bind_ok h
  exact ⟨i, srcF, subF, sub2F, ttl, textF, descF, urlF, newsF, htmlF, dateF,
    createdF, collF, topicsF, sentF, sty, engF, starsF, mcF, userF, tickF,
    addrF, kiF, dpF, e1, e2, e3, e4, e5, e6, e7, e8, e9, e10, e11, e12, e13,
    e14, e15, e16, e17, e18, e19, e20, e21, e22, e23, e24,
    (Except.ok.inj h).symm⟩

/-- C5: two raw records agreeing on the source field, the subSource field
and the first available of url, name, or the 50-character text prefix are
assigned the same fingerprint id by normalizeSignal, regardless of the
order (and hence the clock readings) under which the two records are
normalized. -/
theorem normalizeSignal_fingerprint_stable
    (r1 r2 : JSValue) (now1 now2 : String) (s1 s2 : Signal)
    (hsrc : getF r1 "source" = getF r2 "source")
    (hsub : getF r1 "subSource" = getF r2 "subSource")
    (hkey : idKeyPart r1 = idKeyPart r2)
    (h1 : normalizeSignal now1 r1 = .ok s1)
    (h2 : normalizeSignal now2 r2 = .ok s2) :
    s1.id = s2.id := by
  obtain ⟨i1, _, _, _, _, _, _, _, _, _, _, _, _, _, _, _, _, _, _, _, _, _, _, _,
    g1, _, _, _, _, _, _, _, _, _, _, _, _, _, _, _, _, _, _, _, _, _, _, _, hs1⟩ :=
    normalizeSignal_ok_elim h1
  obtain ⟨i2, _, _, _, _, _, _, _, _, _, _, _, _, _, _, _, _, _, _, _, _, _, _, _,
    g2, _, _, _, _, _, _, _, _, _, _, _, _, _, _, _, _, _, _, _, _, _, _, _, hs2⟩ :=
    normalizeSignal_ok_elim h2
  have hgen : generateId r1 = generateId r2 := by
    unfold generateId idParts
    rw [hsrc, hsub, hkey]
  rw [hgen, g2] at g1
  rw [hs1, hs2]
  exact (Except.ok.inj g1).symm

/-- Witness for C5: two concrete records sharing source, subSource and url
but differing in another field, normalized under different clock readings,
receive equal ids. -/
theorem normalizeSignal_fingerprint_stable_witness :
    (normalizeSignal "2024-01-01T00:00:00.000Z"
        (.obj [("source", .str "social"), ("subSource", .str "kol"),
               ("url", .str "https://x.com/p/1")])).map Signal.id
      = (normalizeSignal "2024-01-02T09:30:00.000Z"
        (.obj [("source", .str "social"), ("subSource", .str "kol"),
               ("url", .str "https://x.com/p/1"),
               ("sentiment", .str "positive")])).map Signal.id := by
  have hsrc : getF (.obj [("source", .str "social"), ("subSource", .str "kol"),
        ("url", .str "https://x.com/p/1")]) "source"
      = getF (.obj [("source", .str "social"), ("subSource", .str "kol"),
        ("url", .str "https://x.com/p/1"), ("sentiment", .str "positive")]) "source" := rfl
  have hsub : getF (.obj [("source", .str "social"), ("subSource", .str "kol"),
        ("url", .str "https://x.com/p/1")]) "subSource"
      = getF (.obj [("source", .str "social"), ("subSource", .str "kol"),
        ("url", .str "https://x.com/p/1"), ("sentiment", .str "positive")]) "subSource" := rfl
  have hkey : idKeyPart (.obj [("source", .str "social"), ("subSource", .str "kol"),
        ("url", .str "https://x.com/p/1")])
      = idKeyPart (.obj [("source", .str "social"), ("subSource", .str "kol"),
        ("url", .str "https://x.com/p/1"), ("sentiment", .str "positive")]) := rfl
  cases hq1 : normalizeSignal "2024-01-01T00:00:00.000Z"
      (.obj [("source", .str "social"), ("subSource", .str "kol"),
             ("url", .str "https://x.com/p/1")]) with
  | error e =>
      have hOk : (normalizeSignal "2024-01-01T00:00:00.000Z"
          (.obj [("source", .str "social"), ("subSource", .str "kol"),
                 ("url", .str "https://x.com/p/1")])).isOk = true := by decide
      rw [hq1] at hOk
      exact absurd hOk (by simp [Except.isOk, Except.toBool])
  | ok s1 =>
    cases hq2 : normalizeSignal "2024-01-02T09:30:00.000Z"
        (.obj [("source", .str "social"), ("subSource", .str "kol"),
               ("url", .str "https://x.com/p/1"),
               ("sentiment", .str "positive")]) with
    | error e =>
        have hOk : (normalizeSignal "2024-01-02T09:30:00.000Z"
            (.obj [("source", .str "social"), ("subSource", .str "kol"),
                   ("url", .str "https://x.com/p/1"),
                   ("sentiment", .str "positive")])).isOk = true := by decide
        rw [hq2] at hOk
        exact absurd hOk (by simp [Except.isOk, Except.toBool])
    | ok s2 =>
      have hid := normalizeSignal_fingerprint_stable
        (.obj [("source", .str "social"), ("subSource", .str "kol"),
               ("url", .str "https://x.com/p/1")])
        (.obj [("source", .str "social"), ("subSource", .str "kol"),
               ("url", .str "https://x.com/p/1"), ("sentiment", .str "positive")])
        "2024-01-01T00:00:00.000Z" "2024-01-02T09:30:00.000Z" s1 s2
        hsrc hsub hkey hq1 hq2
      simp only [Except.map]
      rw [hid]

/-- C7 counterexample: normalizeSignal is not total on all well-formed
JSON-like input.  On null the very first property access throws, and on an
object whose text field is the number 5 (with no url or name), the
substring call inside generateId throws. -/
theorem normalizeSignal_throws_counterexample :
    (normalizeSignal "2024-01-01T00:00:00.000Z" .null).isOk = false ∧
    (normalizeSignal "2024-01-01T00:00:00.000Z" (.obj [("text", .num 5)])).isOk = false := by
  exact ⟨by decide, by decide⟩

/-- C7 as amended: normalizeSignal is total on JSON objects whose text and
subSource fields, when present, are strings or null — a sufficient
condition covering the two fields on which the normalizer may invoke a
substring or includes method; on such records it never throws, and on the
empty record it substitutes exactly the documented defaults (empty string,
null, unknown, neutral and the derived general signal type).  Totality
fails only at the reachable TypeErrors exhibited by the counterexample. -/
theorem normalizeSignal_total (now : String) (fields : List (String × JSValue))
    (htext : ∀ v, fields.lookup "text" = some v → (∃ t, v = .str t) ∨ v = .null)
    (hsub : ∀ v, fields.lookup "subSource" = some v → (∃ t, v = .str t) ∨ v = .null) :
    (normalizeSignal now (.obj fields)).isOk = true ∧
    normalizeSignal now (.obj []) = .ok
      { id := "sig_" ++ toBase36 (hashString "||").natAbs,
        source := .str "unknown", subSource := .str "unknown",
        title := .str "Untitled Signal", text := .str "", url := .null,
        date := .str now, collectedAt := .str now, topics := [],
        sentiment := .str "neutral", signalType := .str "general",
        engagement := .null, stars := .null, marketCap := .null,
        username := .null, ticker := .null, address := .null,
        keyInsight := .null, dataPoint := .null } := by
  have htv : fields.lookup "text" = none ∨ fields.lookup "text" = some .null ∨
      ∃ t, fields.lookup "text" = some (.str t) := by
    cases h : fields.lookup "text" with
    | none => exact Or.inl rfl
    | some v =>
        rcases htext v h with ⟨t, rfl⟩ | rfl
        · exact Or.inr (Or.inr ⟨t, rfl⟩)
        · exact Or.inr (Or.inl rfl)
  have hsv : fields.lookup "subSource" = none ∨ fields.lookup "subSource" = some .null ∨
      ∃ t, fields.lookup "subSource" = some (.str t) := by
    cases h : fields.lookup "subSource" with
    | none => exact Or.inl rfl
    | some v =>
        rcases hsub v h with ⟨t, rfl⟩ | rfl
        · exact Or.inr (Or.inr ⟨t, rfl⟩)
        · exact Or.inr (Or.inl rfl)
  have hkeyok : ∃ v, idKeyPart (.obj fields) = .ok v := by
    simp only [idKeyPart, getF_obj, exceptOk_bind]
    split_ifs
    · exact ⟨_, rfl⟩
    · exact ⟨_, rfl⟩
    · rcases htv with h | h | ⟨t, h⟩ <;> rw [h] <;> exact ⟨_, rfl⟩
  have hgen : ∃ i, generateId (.obj fields) = .ok i := by
    obtain ⟨v, hkey⟩ := hkeyok
    simp only [generateId, idParts, getF_obj, exceptOk_bind, hkey]
    exact ⟨_, rfl⟩
  have hext : ∃ t, extractTitle (.obj fields) = .ok t := by
    simp only [extractTitle, getF_obj, exceptOk_bind]
    split_ifs with h1 h2 h3
    · exact ⟨_, rfl⟩
    · rcases htv with h | h | ⟨t, h⟩
      · rw [h] at h2
        exact absurd h2 (by simp [truthy])
      · rw [h] at h2
        exact absurd h2 (by simp [truthy])
      · rw [h]
        exact ⟨_, rfl⟩
    · exact ⟨_, rfl⟩
    · exact ⟨_, rfl⟩
  have htitle : ∃ t, titleValue (.obj fields) = .ok t := by
    obtain ⟨t, he⟩ := hext
    simp only [titleValue, getF_obj, exceptOk_bind]
    split_ifs
    · exact ⟨_, rfl⟩
    · exact ⟨_, rfl⟩
    · exact ⟨t, he⟩
  have hcls : ∃ cs, classifySignalType (.obj fields) = .ok cs := by
    rcases hsv with h | h | ⟨t, h⟩ <;>
      simp only [classifySignalType, getF_obj, exceptOk_bind, h, Option.getD_some,
        Option.getD_none, optIncludes, exceptPure_eq_ok] <;>
      split_ifs <;> exact ⟨_, rfl⟩
  have hstv : ∃ t, signalTypeValue (.obj fields) = .ok t := by
    obtain ⟨cs, hc⟩ := hcls
    simp only [signalTypeValue, getF_obj, exceptOk_bind, hc]
    split_ifs
    · exact ⟨_, rfl⟩
    · exact ⟨_, rfl⟩
  constructor
  · obtain ⟨i, hg⟩ := hgen
    obtain ⟨tv, ht⟩ := htitle
    obtain ⟨sv, hs⟩ := hstv
    simp only [normalizeSignal, getF_obj, exceptOk_bind, hg, ht, hs]
    rfl
  · rfl

/-- Witness for C7 as amended: a record with a string text, a null
subSource and a numeric stars field normalizes without throwing, and the
empty record produces the documented defaults. -/
theorem normalizeSignal_total_witness :
    (normalizeSignal "2024-01-01T00:00:00.000Z"
        (.obj [("text", .str "gm"), ("subSource", .null), ("stars", .num 42)])).isOk = true ∧
    normalizeSignal "2024-01-01T00:00:00.000Z" (.obj []) = .ok
      { id := "sig_" ++ toBase36 (hashString "||").natAbs,
        source := .str "unknown", subSource := .str "unknown",
        title := .str "Untitled Signal", text := .str "", url := .null,
        date := .str "2024-01-01T00:00:00.000Z",
        collectedAt := .str "2024-01-01T00:00:00.000Z", topics := [],
        sentiment := .str "neutral", signalType := .str "general",
        engagement := .null, stars := .null, marketCap := .null,
        username := .null, ticker := .null, address := .null,
        keyInsight := .null, dataPoint := .null } :=
  normalizeSignal_total "2024-01-01T00:00:00.000Z"
    [("text", .str "gm"), ("subSource", .null), ("stars", .num 42)]
    (fun v hv => Or.inl ⟨"gm", by injection hv with h; exact h.symm⟩)
    (fun v hv => Or.inr (by injection hv with h; exact h.symm))

/-- If the title expression produced a falsy value, it came from the
trimmed-text branch of extractTitle, so the text field is a truthy
string. -/
theorem titleValue_falsy {raw ttl textF : JSValue}
    (htl : titleValue raw = .ok ttl) (htx : getF raw "text" = .ok textF)
    (hf : truthy ttl = false) :
    ∃ t, t ≠ "" ∧ textF = .str t := by
  unfold titleValue at htl
  obtain ⟨nameF, hn, htl⟩ := bind_ok htl
  by_cases h1 : truthy nameF = true
  · rw [if_pos h1] at htl
    rw [← Except.ok.inj htl] at hf
    exact absurd h1 (by rw [hf]; decide)
  · rw [if_neg h1] at htl
    obtain ⟨titleF, ht2, htl⟩ := bind_ok htl
    by_cases h2 : truthy titleF = true
    · rw [if_pos h2] at htl
      rw [← Except.ok.inj htl] at hf
      exact absurd h2 (by rw [hf]; decide)
    · rw [if_neg h2] at htl
      unfold extractTitle at htl
      obtain ⟨nameF2, hn2, htl⟩ := bind_ok htl
      have hnn : nameF2 = nameF := by
        rw [hn] at hn2
        exact (Except.ok.inj hn2).symm
      subst hnn
      rw [if_neg h1] at htl
      obtain ⟨textF2, ht3, htl⟩ := bind_ok htl
      have htt : textF2 = textF := by
        rw [htx] at ht3
        exact (Except.ok.inj ht3).symm
      rw [htt] at htl
      by_cases h3 : truthy textF = true
      · rw [if_pos h3] at htl
        rcases textF with _ | _ | bv | qv | t | xs | fs
        · exact Except.noConfusion htl
        · exact Except.noConfusion htl
        · exact Except.noConfusion htl
        · exact Except.noConfusion htl
        · refine ⟨t, ?_, rfl⟩
          simpa [truthy] using h3
        · exact Except.noConfusion htl
        · exact Except.noConfusion htl
      · rw [if_neg h3] at htl
        obtain ⟨tickF, ht4, htl⟩ := bind_ok htl
        by_cases h4 : truthy tickF = true
        · rw [if_pos h4] at htl
          rw [← Except.ok.inj htl] at hf
          simp only [truthy, decide_eq_false_iff_not, ne_eq, not_not] at hf
          have hlen := congrArg String.length hf
          rw [String.length_append] at hlen
          have h1L : ("$" : String).length = 1 := rfl
          have h0L : ("" : String).length = 0 := rfl
          rw [h1L, h0L] at hlen
          omega
        · rw [if_neg h4] at htl
          rw [← Except.ok.inj htl] at hf
          exact absurd hf (by decide)

/-- Every classification the signal-type classifier returns is one of its
nonempty string literals. -/
theorem classifySignalType_ne_empty {raw : JSValue} {cs : String}
    (h : classifySignalType raw = .ok cs) : cs ≠ "" := by
  have fin : ∀ lit : String, (pure lit : Except String String) = .ok cs →
      lit ≠ "" → cs ≠ "" := by
    intro lit hl hne
    rw [← Except.ok.inj hl]
    exact hne
  unfold classifySignalType at h
  obtain ⟨src, hs, h⟩ := bind_ok h
  by_cases h1 : jsEqStr src "github" = true
  · rw [if_pos h1] at h
    exact fin _ h (by decide)
  · rw [if_neg h1] at h
    by_cases h2 : jsEqStr src "research" = true
    · rw [if_pos h2] at h
      exact fin _ h (by decide)
    · rw [if_neg h2] at h
      obtain ⟨sub, hsub, h⟩ := bind_ok h
      obtain ⟨b1, hb1, h⟩ := bind_ok h
      by_cases h3 : b1 = true
      · rw [if_pos h3] at h
        exact fin _ h (by decide)
      · rw [if_neg h3] at h
        obtain ⟨b2, hb2, h⟩ := bind_ok h
        by_cases h4 : b2 = true
        · rw [if_pos h4] at h
          exact fin _ h (by decide)
        · rw [if_neg h4] at h
          by_cases h5 : jsEqStr src "onchain" = true
          · rw [if_pos h5] at h
            exact fin _ h (by decide)
          · rw [if_neg h5] at h
            by_cases h6 : jsEqStr src "social" = true
            · rw [if_pos h6] at h
              by_cases h7 : jsEqStr sub "kol" = true
              · rw [if_pos h7] at h
                exact fin _ h (by decide)
              · rw [if_neg h7] at h
                by_cases h8 : jsEqStr sub "trending" = true
                · rw [if_pos h8] at h
                  exact fin _ h (by decide)
                · rw [if_neg h8] at h
                  exact fin _ h (by decide)
            · rw [if_neg h6] at h
              exact fin _ h (by decide)

/-- The signalType value of a normalized signal is always truthy: either
the raw field was truthy, or the classifier returned a nonempty literal. -/
theorem signalTypeValue_truthy {raw sty : JSValue}
    (h : signalTypeValue raw = .ok sty) : truthy sty = true := by
  unfold signalTypeValue at h
  obtain ⟨st, hs, h⟩ := bind_ok h
  by_cases h1 : truthy st = true
  · rw [if_pos h1] at h
    rw [← Except.ok.inj h]
    exact h1
  · rw [if_neg h1] at h
    obtain ⟨cs, hc, h⟩ := bind_ok h
    have hne := classifySignalType_ne_empty hc
    rw [← Except.ok.inj h]
    simp [truthy, hne]

/-- For a raw record with nonempty string source, subSource and url, the
fingerprint is the hash of those three fields joined by a bar. -/
theorem generateId_goodRaw {raw : JSValue} {a b u : String}
    (hsa : getF raw "source" = .ok (.str a)) (ha : a ≠ "")
    (hsb : getF raw "subSource" = .ok (.str b)) (hb : b ≠ "")
    (hsu : getF raw "url" = .ok (.str u)) (hu : u ≠ "") :
    generateId raw
      = .ok ("sig_" ++ toBase36 (hashString (jsJoin "|" [.str a, .str b, .str u])).natAbs) := by
  have hkey : idKeyPart raw = .ok (.str u) := by
    simp only [idKeyPart, hsu, exceptOk_bind]
    rw [if_pos (by simp [truthy, hu])]
    rfl
  simp only [generateId, idParts, hsa, hsb, hkey, exceptOk_bind, exceptPure_eq_ok]
  rw [jsOr_str _ ha, jsOr_str _ hb]

/-- Renormalizing an already-normalized signal whose raw record had
nonempty string source, subSource and url succeeds and preserves the
fingerprint id: the three id parts survive normalization verbatim. -/
theorem normalizeSignal_renormalize {now now2 : String} {raw : JSValue} {s : Signal}
    (hg : GoodRaw raw) (h : normalizeSignal now raw = .ok s) :
    ∃ s2, normalizeSignal now2 s.toJS = .ok s2 ∧ s2.id = s.id := by
  obtain ⟨⟨a, ha, hsa⟩, ⟨b, hb, hsb⟩, ⟨u, hu, hsu⟩⟩ := hg
  obtain ⟨i, srcF, subF, sub2F, ttl, textF, descF, urlF, newsF, htmlF, dateF,
    createdF, collF, topicsF, sentF, sty, engF, starsF, mcF, userF, tickF,
    addrF, kiF, dpF, e1, e2, e3, e4, e5, e6, e7, e8, e9, e10, e11, e12, e13,
    e14, e15, e16, e17, e18, e19, e20, e21, e22, e23, e24, hs⟩ :=
    normalizeSignal_ok_elim h
  have hsrcv : srcF = .str a := by
    rw [hsa] at e2
    exact (Except.ok.inj e2).symm
  have hsubv : subF = .str b := by
    rw [hsb] at e3
    exact (Except.ok.inj e3).symm
  have hurlv : urlF = .str u := by
    rw [hsu] at e8
    exact (Except.ok.inj e8).symm
  subst hsrcv
  subst hsubv
  subst hurlv
  have f_src : s.source = .str a := by
    rw [hs]
    exact jsOr_str _ ha
  have f_sub : s.subSource = .str b := by
    rw [hs]
    exact jsOr_str _ hb
  have f_url : s.url = .str u := by
    rw [hs]
    exact jsOr_str _ hu
  have f_id : s.id = i := by rw [hs]
  have f_title : s.title = ttl := by rw [hs]
  have f_text : s.text = jsOr textF (jsOr descF (.str "")) := by rw [hs]
  have f_sty : s.signalType = sty := by rw [hs]
  have g_src : getF s.toJS "source" = .ok s.source := rfl
  have g_sub : getF s.toJS "subSource" = .ok s.subSource := rfl
  have g_sub2 : getF s.toJS "sub_source" = .ok .undefinedV := rfl
  have g_name : getF s.toJS "name" = .ok .undefinedV := rfl
  have g_title : getF s.toJS "title" = .ok s.title := rfl
  have g_text : getF s.toJS "text" = .ok s.text := rfl
  have g_desc : getF s.toJS "description" = .ok .undefinedV := rfl
  have g_url : getF s.toJS "url" = .ok s.url := rfl
  have g_news : getF s.toJS "news_url" = .ok .undefinedV := rfl
  have g_html : getF s.toJS "html_url" = .ok .undefinedV := rfl
  have g_date : getF s.toJS "date" = .ok s.date := rfl
  have g_created : getF s.toJS "createdAt" = .ok .undefinedV := rfl
  have g_coll : getF s.toJS "collectedAt" = .ok s.collectedAt := rfl
  have g_topics : getF s.toJS "topics" = .ok (.arr (s.topics.map .str)) := rfl
  have g_sent : getF s.toJS "sentiment" = .ok s.sentiment := rfl
  have g_sigty : getF s.toJS "signalType" = .ok s.signalType := rfl
  have g_eng : getF s.toJS "engagement" = .ok s.engagement := rfl
  have g_stars : getF s.toJS "stars" = .ok s.stars := rfl
  have g_mc : getF s.toJS "marketCap" = .ok s.marketCap := rfl
  have g_user : getF s.toJS "username" = .ok s.username := rfl
  have g_tick : getF s.toJS "ticker" = .ok s.ticker := rfl
  have g_addr : getF s.toJS "address" = .ok s.address := rfl
  have g_ki : getF s.toJS "keyInsight" = .ok s.keyInsight := rfl
  have g_dp : getF s.toJS "dataPoint" = .ok s.dataPoint := rfl
  have hgen1 : generateId raw
      = .ok ("sig_" ++ toBase36 (hashString (jsJoin "|" [.str a, .str b, .str u])).natAbs) :=
    generateId_goodRaw hsa ha hsb hb hsu hu
  have hi : i = "sig_" ++ toBase36 (hashString (jsJoin "|" [.str a, .str b, .str u])).natAbs := by
    rw [hgen1] at e1
    exact (Except.ok.inj e1).symm
  have hgen2 : generateId s.toJS = .ok i := by
    rw [hi]
    exact generateId_goodRaw (by rw [g_src, f_src]) ha (by rw [g_sub, f_sub]) hb
      (by rw [g_url, f_url]) hu
  have htl2 : ∃ t2, titleValue s.toJS = .ok t2 := by
    by_cases hT : truthy s.title = true
    · refine ⟨s.title, ?_⟩
      simp only [titleValue, g_name, exceptOk_bind]
      rw [if_neg (by decide)]
      simp only [g_title, exceptOk_bind]
      rw [if_pos hT]
      rfl
    · have hf0 : truthy s.title = false := by
        cases hbool : truthy s.title with
        | false => rfl
        | true => exact absurd hbool hT
      have hf : truthy ttl = false := f_title ▸ hf0
      obtain ⟨t, ht0, htf⟩ := titleValue_falsy e5 e6 hf
      have f_text2 : s.text = .str t := by
        rw [f_text, htf, jsOr_str _ ht0]
      refine ⟨.str (jsTrim (jsSubstring t 100)), ?_⟩
      simp only [titleValue, g_name, exceptOk_bind]
      rw [if_neg (by decide)]
      simp only [g_title, exceptOk_bind]
      rw [if_neg hT]
      simp only [extractTitle, g_name, exceptOk_bind]
      rw [if_neg (by decide)]
      simp only [g_text, exceptOk_bind, f_text2]
      rw [if_pos (by simp [truthy, ht0])]
      rfl
  have hst2 : signalTypeValue s.toJS = .ok sty := by
    have htru : truthy sty = true := signalTypeValue_truthy e16
    simp only [signalTypeValue, g_sigty, exceptOk_bind, f_sty]
    rw [if_pos htru]
    rfl
  obtain ⟨t2, htl2⟩ := htl2
  have hok2 : (normalizeSignal now2 s.toJS).isOk = true := by
    simp only [normalizeSignal, hgen2, exceptOk_bind, g_src, g_sub, g_sub2,
      htl2, g_text, g_desc, g_url, g_news, g_html, g_date, g_created, g_coll,
      g_topics, g_sent, hst2, g_eng, g_stars, g_mc, g_user, g_tick, g_addr,
      g_ki, g_dp]
    rfl
  obtain ⟨s2, hs2⟩ : ∃ s2, normalizeSignal now2 s.toJS = .ok s2 := by
    cases hcc : normalizeSignal now2 s.toJS with
    | ok s2 => exact ⟨s2, rfl⟩
    | error e =>
        rw [hcc] at hok2
        exact absurd hok2 (by simp [Except.isOk, Except.toBool])
  refine ⟨s2, hs2, ?_⟩
  obtain ⟨i2, _, _, _, _, _, _, _, _, _, _, _, _, _, _, _, _, _, _, _, _, _, _, _,
    e1b, _, _, _, _, _, _, _, _, _, _, _, _, _, _, _, _, _, _, _, _, _, _, _, hs2eq⟩ :=
    normalizeSignal_ok_elim hs2
  have hii : i2 = i := by
    rw [hgen2] at e1b
    exact (Except.ok.inj e1b).symm
  rw [hs2eq, f_id]
  exact hii

/-- The dedup loop produces pairwise-distinct ids, none of which were
already in the seen set. -/
theorem normalizeLoop_nodup {now : String} :
    ∀ {raws : List JSValue} {seen : List String} {l : List Signal},
      normalizeLoop now raws seen = .ok l →
      (l.map Signal.id).Nodup ∧ ∀ i ∈ l.map Signal.id, i ∉ seen := by
  intro raws
  induction raws with
  | nil =>
      intro seen l h
      have he : [] = l := Except.ok.inj h
      subst he
      simp
  | cons raw rest ih =>
      intro seen l h
      simp only [normalizeLoop] at h
      obtain ⟨sig, hsig, h⟩ := bind_ok h
      by_cases hmem : sig.id ∈ seen
      · rw [if_pos hmem] at h
        exact ih h
      · rw [if_neg hmem] at h
        obtain ⟨tl, htl, h⟩ := bind_ok h
        have hl : sig :: tl = l := Except.ok.inj h
        subst hl
        obtain ⟨hnd, hsub⟩ := ih htl
        constructor
        · simp only [List.map_cons]
          refine List.nodup_cons.mpr ⟨?_, hnd⟩
          intro hmem2
          exact (hsub _ hmem2) (List.mem_cons_self _ _)
        · intro x hx
          simp only [List.map_cons, List.mem_cons] at hx
          rcases hx with rfl | hx
          · exact hmem
          · intro hxseen
            exact (hsub x hx) (List.mem_cons_of_mem _ hxseen)

/-- Every signal produced by the dedup loop is the normalization of one of
the raw records. -/
theorem normalizeLoop_mem {now : String} :
    ∀ {raws : List JSValue} {seen : List String} {l : List Signal},
      normalizeLoop now raws seen = .ok l →
      ∀ s ∈ l, ∃ raw ∈ raws, normalizeSignal now raw = .ok s := by
  intro raws
  induction raws with
  | nil =>
      intro seen l h s hsmem
      have he : [] = l := Except.ok.inj h
      subst he
      simp at hsmem
  | cons raw rest ih =>
      intro seen l h s hsmem
      simp only [normalizeLoop] at h
      obtain ⟨sig, hsig, h⟩ := bind_ok h
      by_cases hmem : sig.id ∈ seen
      · rw [if_pos hmem] at h
        obtain ⟨r, hr, hok2⟩ := ih h s hsmem
        exact ⟨r, List.mem_cons_of_mem _ hr, hok2⟩
      · rw [if_neg hmem] at h
        obtain ⟨tl, htl, h⟩ := bind_ok h
        have hl : sig :: tl = l := Except.ok.inj h
        subst hl
        rcases List.mem_cons.mp hsmem with rfl | hx
        · exact ⟨raw, List.mem_cons_self _ _, hsig⟩
        · obtain ⟨r, hr, hok2⟩ := ih htl s hx
          exact ⟨r, List.mem_cons_of_mem _ hr, hok2⟩

/-- Running the dedup loop over renormalized copies of signals with
pairwise-distinct ids succeeds, drops nothing, and reproduces the id
list. -/
theorem normalizeLoop_renorm (now2 : String) :
    ∀ (l : List Signal) (seen : List String),
      (∀ s ∈ l, ∃ s2, normalizeSignal now2 s.toJS = .ok s2 ∧ s2.id = s.id) →
      (l.map Signal.id).Nodup →
      (∀ s ∈ l, s.id ∉ seen) →
      ∃ l2, normalizeLoop now2 (l.map Signal.toJS) seen = .ok l2 ∧
        l2.map Signal.id = l.map Signal.id := by
  intro l
  induction l with
  | nil =>
      intro seen _ _ _
      exact ⟨[], rfl, rfl⟩
  | cons s tl ih =>
      intro seen hall hnd hseen
      obtain ⟨s2, hs2, hid⟩ := hall s (List.mem_cons_self _ _)
      have hnotin : s2.id ∉ seen := by
        rw [hid]
        exact hseen s (List.mem_cons_self _ _)
      have hnd2 : (tl.map Signal.id).Nodup := (List.nodup_cons.mp (by simpa using hnd)).2
      have hhead : s.id ∉ tl.map Signal.id := (List.nodup_cons.mp (by simpa using hnd)).1
      obtain ⟨l2, hl2, hmap⟩ := ih (s2.id :: seen)
        (fun t ht => hall t (List.mem_cons_of_mem _ ht))
        hnd2
        (fun t ht hcon => by
          rcases List.mem_cons.mp hcon with heq | h2
          · have hmm : t.id ∈ tl.map Signal.id := List.mem_map_of_mem _ ht
            rw [heq, hid] at hmm
            exact hhead hmm
          · exact hseen t (List.mem_cons_of_mem _ ht) h2)
      refine ⟨s2 :: l2, ?_, ?_⟩
      · simp only [List.map_cons, normalizeLoop, hs2, exceptOk_bind]
        rw [if_neg hnotin, hl2]
        rfl
      · simp [hmap, hid]

/-- C6 as amended: for raw records whose fingerprint key fields survive
normalization (nonempty string source, subSource and url), feeding the
output of normalizeAll back into normalizeAll succeeds and reproduces the
same id multiset (no new duplicates and no changed identities), and the
output of the first pass already carries pairwise-distinct ids.  On general
records this fails, because generateId reads the name field, which
normalization renames to title, and the defaulted source changes the
fingerprint input (see the counterexample). -/
theorem normalizeAll_renormalize_ids
    (dv dv2 : JSValue → ℤ) (now now2 : String)
    (xs : List JSValue) (ss : List Signal)
    (hgood : ∀ r ∈ xs, GoodRaw r)
    (hok : normalizeAll dv now xs = .ok ss) :
    (normalizeAll dv2 now2 (ss.map Signal.toJS)).map
        (fun l => ((l.map Signal.id : List String) : Multiset String))
      = .ok ((ss.map Signal.id : List String) : Multiset String) ∧
    (ss.map Signal.id).Nodup := by
  unfold normalizeAll at hok
  obtain ⟨l0, hl0, hok⟩ := bind_ok hok
  have hss : List.insertionSort (byDateDesc dv) l0 = ss := Except.ok.inj hok
  have hperm0 : (List.insertionSort (byDateDesc dv) l0).Perm l0 :=
    List.perm_insertionSort _ _
  have hpermIds : (ss.map Signal.id).Perm (l0.map Signal.id) := by
    rw [← hss]
    exact hperm0.map _
  obtain ⟨hnd0, _⟩ := normalizeLoop_nodup hl0
  have hndss : (ss.map Signal.id).Nodup := hpermIds.nodup_iff.mpr hnd0
  have hall : ∀ s ∈ ss, ∃ s2, normalizeSignal now2 s.toJS = .ok s2 ∧ s2.id = s.id := by
    intro s hsm
    have hsl0 : s ∈ l0 := by
      rw [← hss] at hsm
      exact hperm0.mem_iff.mp hsm
    obtain ⟨raw, hraw, hnorm⟩ := normalizeLoop_mem hl0 s hsl0
    exact normalizeSignal_renormalize (hgood raw hraw) hnorm
  obtain ⟨l2, hl2, hmap2⟩ := normalizeLoop_renorm now2 ss [] hall hndss
    (fun s _ => List.not_mem_nil _)
  refine ⟨?_, hndss⟩
  unfold normalizeAll
  rw [hl2]
  simp only [exceptOk_bind, exceptPure_eq_ok, Except.map]
  have hperm2 : ((List.insertionSort (byDateDesc dv2) l2).map Signal.id).Perm
      (ss.map Signal.id) := by
    rw [← hmap2]
    exact (List.perm_insertionSort _ _).map _
  exact congrArg Except.ok (Multiset.coe_eq_coe.mpr hperm2)

/-- C6 counterexample: normalizeAll is not idempotent on the resulting id
set in general.  For a single github record keyed by its name field, the
renormalized pass hashes github-bar-unknown-bar-empty instead of
github-bar-bar-name, so the id set changes. -/
theorem normalizeAll_not_idempotent_counterexample :
    ((normalizeAll (fun _ => 0) "2024-01-01T00:00:00.000Z"
        [.obj [("source", .str "github"), ("name", .str "solana-sdk")]]).bind
      (fun ss => normalizeAll (fun _ => 0) "2024-01-01T00:00:00.000Z"
        (ss.map Signal.toJS))).map (fun l => l.map Signal.id)
      ≠ (normalizeAll (fun _ => 0) "2024-01-01T00:00:00.000Z"
          [.obj [("source", .str "github"), ("name", .str "solana-sdk")]]).map
          (fun l => l.map Signal.id) := by
  decide

/-- Witness for C6 as amended, at one concrete social record with nonempty
source, subSource and url: renormalizing its normalized signal keeps the
singleton id multiset, which is duplicate-free. -/
theorem normalizeAll_renormalize_ids_witness :
    (normalizeAll (fun _ => 0) "2024-01-02T09:30:00.000Z"
        ([sampleKolSignal].map Signal.toJS)).map
        (fun l => ((l.map Signal.id : List String) : Multiset String))
      = .ok (([sampleKolSignal].map Signal.id : List String) : Multiset String) ∧
    ([sampleKolSignal].map Signal.id).Nodup :=
  normalizeAll_renormalize_ids (fun _ => 0) (fun _ => 0)
    "2024-01-01T00:00:00.000Z" "2024-01-02T09:30:00.000Z"
    [sampleKolRaw] [sampleKolSignal]
    (fun r hr => by
      rw [List.mem_singleton] at hr
      subst hr
      exact ⟨⟨"social", by decide, rfl⟩, ⟨"kol", by decide, rfl⟩,
        ⟨"https://a", by decide, rfl⟩⟩)
    rfl

end Radar
